import Mathlib

/-!
Shallow embedding of `@ngneat/forms-manager` (`forms-manager.ts`) : the
`NgFormsManager` registration/synchronization/persistence engine.

JavaScript values that flow through the manager (control values, snapshots,
parsed storage blobs) are modelled by `JSVal`.  The manager's mutable fields
(`store`, `valueChanges$$`, `instances$$`, `initialValues$$`, the rxjs
subscriptions, and the `localStorage` content) are modelled by the record
`MState`; each public method becomes a state-passing function, returning
`Except JsError _` because the source can throw (`JSON.parse` on a corrupt
blob, `localStorage` access outside a browser).  Reactive streams are
modelled as the lists of values they emit.
-/

mutual
/-- A JavaScript (JSON-serializable) value.  Objects keep insertion order,
as JS objects do.  Mutual lists (`JSArr`, `JSObj`) are used instead of
`List` so that `DecidableEq` can be derived. -/
inductive JSVal where
  | null : JSVal
  | bool (b : Bool) : JSVal
  | num (n : Int) : JSVal
  | str (s : String) : JSVal
  | arr (xs : JSArr) : JSVal
  | obj (fields : JSObj) : JSVal
  deriving DecidableEq, Repr

inductive JSArr where
  | nil : JSArr
  | cons (v : JSVal) (rest : JSArr) : JSArr
  deriving DecidableEq, Repr

inductive JSObj where
  | nil : JSObj
  | cons (k : String) (v : JSVal) (rest : JSObj) : JSObj
  deriving DecidableEq, Repr
end

/-- Property read `o[k]` on a JS object: `none` models `undefined`. -/
def JSObj.lookup : JSObj → String → Option JSVal
  | .nil, _ => none
  | .cons k v rest, key => if k = key then some v else JSObj.lookup rest key

/-- Property write `o[k] = v` on a JS object: an existing key keeps its
position, a new key is appended (JS insertion-order semantics). -/
def JSObj.set : JSObj → String → JSVal → JSObj
  | .nil, key, v => .cons key v .nil
  | .cons k w rest, key, v =>
    if k = key then .cons k v rest else .cons k w (JSObj.set rest key v)

def JSArr.get : JSArr → Nat → Option JSVal
  | .nil, _ => none
  | .cons v _, 0 => some v
  | .cons _ rest, n + 1 => JSArr.get rest n

def JSArr.length : JSArr → Nat
  | .nil => 0
  | .cons _ rest => JSArr.length rest + 1

/-- Property read `v[k]` on an arbitrary JS value: defined only for
objects, `undefined` (`none`) otherwise. -/
def jsIndex (v : JSVal) (k : String) : Option JSVal :=
  match v with
  | .obj fields => fields.lookup k
  | _ => none

/-- Property write `v[k] = x` on an arbitrary JS value; assignment on a
non-object primitive is silently ignored (non-strict JS). -/
def jsSet (v : JSVal) (k : String) (x : JSVal) : JSVal :=
  match v with
  | .obj fields => .obj (fields.set k x)
  | _ => v

/-- JS truthiness of a value. -/
def truthy : JSVal → Bool
  | .null => false
  | .bool b => b
  | .num n => n != 0
  | .str s => s ≠ ""
  | .arr _ => true
  | .obj _ => true

/-- JS truthiness of a possibly-`undefined` value (`none` = `undefined`). -/
def truthyOpt : Option JSVal → Bool
  | none => false
  | some v => truthy v

/-- Modelled from the spec: the deep structural equality of `isEqual.ts`
(not under `src/`), "structural value comparison" used to suppress
duplicate emissions.  On this model's values it is plain equality; all
snapshots in the model are built with one fixed key order, so order
sensitivity is immaterial. -/
def isEqual (a b : JSVal) : Bool := decide (a = b)

/-- `isEqual` lifted to possibly-`undefined`/`null` stream elements. -/
def isEqualOpt : Option JSVal → Option JSVal → Bool
  | none, none => true
  | some a, some b => isEqual a b
  | _, _ => false

mutual
/-- Modelled from the spec: `mergeDeep` of `utils.ts` (not under `src/`):
deep merge of the source (persisted) value over the target (fresh
snapshot), "persisted fields win on conflicting leaf values"; two objects
are merged key by key, anything else is replaced by the source. -/
def mergeDeep : JSVal → JSVal → JSVal
  | .obj tf, .obj sf => .obj (mergeFieldsLoop tf sf)
  | _, s => s

def mergeFieldsLoop : JSObj → JSObj → JSObj
  | tf, .nil => tf
  | tf, .cons k sv rest =>
    let merged := match tf.lookup k with
      | some tv => mergeDeep tv sv
      | none => sv
    mergeFieldsLoop (tf.set k merged) rest
end

/-- Association-list lookup (`Map.get` / store field access). -/
def alookup {κ α : Type} [DecidableEq κ] : List (κ × α) → κ → Option α
  | [], _ => none
  | (k, v) :: rest, key => if k = key then some v else alookup rest key

/-- Association-list write (`Map.set`): an existing key keeps its position,
a new key is appended. -/
def aset {κ α : Type} [DecidableEq κ] : List (κ × α) → κ → α → List (κ × α)
  | [], key, v => [(key, v)]
  | (k, w) :: rest, key, v =>
    if k = key then (k, v) :: rest else (k, w) :: aset rest key v

/-- Association-list delete (`Map.delete`). -/
def adelete {κ α : Type} [DecidableEq κ] : List (κ × α) → κ → List (κ × α)
  | [], _ => []
  | (k, w) :: rest, key =>
    if k = key then adelete rest key else (k, w) :: adelete rest key

/- ### The external JSON builtins (`JSON.parse`, `JSON.stringify`)

`JSON.parse` is modelled as a real recursive-descent parser returning
`none` exactly when it would throw a `SyntaxError`; numbers are modelled
as integers.  `JSON.stringify` is the matching serializer. -/

def lbraceChar : Char := Char.ofNat 123
def rbraceChar : Char := Char.ofNat 125

def skipWs : List Char → List Char
  | [] => []
  | c :: rest =>
    if c = ' ' ∨ c = '\n' ∨ c = '\t' ∨ c = '\r' then skipWs rest else c :: rest

/-- Body of a JSON string literal after the opening quote; returns the
decoded characters and the input after the closing quote. -/
def parseStringBody : List Char → Option (List Char × List Char)
  | [] => none
  | c :: rest =>
    if c = '"' then some ([], rest)
    else if c = '\\' then
      match rest with
      | [] => none
      | e :: rest2 =>
        let d : Char :=
          if e = 'n' then '\n' else if e = 't' then '\t' else if e = 'r' then '\r' else e
        match parseStringBody rest2 with
        | some (s, r) => some (d :: s, r)
        | none => none
    else
      match parseStringBody rest with
      | some (s, r) => some (c :: s, r)
      | none => none

def takeDigits : List Char → List Char × List Char
  | [] => ([], [])
  | c :: rest =>
    if c.isDigit then
      let (ds, r) := takeDigits rest
      (c :: ds, r)
    else ([], c :: rest)

def digitsToNat (ds : List Char) : Nat :=
  ds.foldl (fun acc c => acc * 10 + (c.toNat - 48)) 0

mutual
def parseVal : Nat → List Char → Option (JSVal × List Char)
  | 0, _ => none
  | fuel + 1, cs =>
    match skipWs cs with
    | [] => none
    | c :: rest =>
      if c = lbraceChar then
        match skipWs rest with
        | [] => none
        | c2 :: r2 =>
          if c2 = rbraceChar then some (.obj .nil, r2)
          else
            match parseObjFields fuel (c2 :: r2) with
            | some (fs, r) => some (.obj fs, r)
            | none => none
      else if c = '[' then
        match skipWs rest with
        | [] => none
        | c2 :: r2 =>
          if c2 = ']' then some (.arr .nil, r2)
          else
            match parseArrItems fuel (c2 :: r2) with
            | some (vs, r) => some (.arr vs, r)
            | none => none
      else if c = '"' then
        match parseStringBody rest with
        | some (s, r) => some (.str (String.mk s), r)
        | none => none
      else if c = 't' then
        match rest with
        | 'r' :: 'u' :: 'e' :: r => some (.bool true, r)
        | _ => none
      else if c = 'f' then
        match rest with
        | 'a' :: 'l' :: 's' :: 'e' :: r => some (.bool false, r)
        | _ => none
      else if c = 'n' then
        match rest with
        | 'u' :: 'l' :: 'l' :: r => some (.null, r)
        | _ => none
      else if c = '-' then
        match takeDigits rest with
        | ([], _) => none
        | (ds, r) => some (.num (-(digitsToNat ds : Int)), r)
      else if c.isDigit then
        match takeDigits (c :: rest) with
        | (ds, r) => some (.num (digitsToNat ds), r)
      else none

def parseObjFields : Nat → List Char → Option (JSObj × List Char)
  | 0, _ => none
  | fuel + 1, cs =>
    match cs with
    | '"' :: rest =>
      match parseStringBody rest with
      | none => none
      | some (k, r) =>
        match skipWs r with
        | ':' :: r2 =>
          match parseVal fuel (skipWs r2) with
          | none => none
          | some (v, r3) =>
            match skipWs r3 with
            | [] => none
            | c :: r4 =>
              if c = ',' then
                match parseObjFields fuel (skipWs r4) with
                | some (fs, r5) => some (.cons (String.mk k) v fs, r5)
                | none => none
              else if c = rbraceChar then some (.cons (String.mk k) v .nil, r4)
              else none
        | _ => none
    | _ => none

def parseArrItems : Nat → List Char → Option (JSArr × List Char)
  | 0, _ => none
  | fuel + 1, cs =>
    match parseVal fuel cs with
    | none => none
    | some (v, r) =>
      match skipWs r with
      | ',' :: r2 =>
        match parseArrItems fuel (skipWs r2) with
        | some (vs, r3) => some (.cons v vs, r3)
        | none => none
      | ']' :: r2 => some (.cons v .nil, r2)
      | _ => none
end

/-- The external `JSON.parse` builtin: `none` models a thrown
`SyntaxError`. -/
def jsonParse (s : String) : Option JSVal :=
  match parseVal (s.length + 1) s.data with
  | some (v, rest) => if skipWs rest = [] then some v else none
  | none => none

def escapeChars (s : List Char) : List Char :=
  s.foldr (fun c acc => if c = '"' ∨ c = '\\' then '\\' :: c :: acc else c :: acc) []

mutual
/-- The external `JSON.stringify` builtin. -/
def stringifyJSON : JSVal → String
  | .null => "null"
  | .bool true => "true"
  | .bool false => "false"
  | .num n => toString n
  | .str s => "\"" ++ String.mk (escapeChars s.data) ++ "\""
  | .arr xs => "[" ++ stringifyArr xs ++ "]"
  | .obj fs => "\x7b" ++ stringifyObj fs ++ "\x7d"

def stringifyArr : JSArr → String
  | .nil => ""
  | .cons v .nil => stringifyJSON v
  | .cons v (.cons w rest) => stringifyJSON v ++ "," ++ stringifyArr (.cons w rest)

def stringifyObj : JSObj → String
  | .nil => ""
  | .cons k v .nil => "\"" ++ String.mk (escapeChars k.data) ++ "\":" ++ stringifyJSON v
  | .cons k v (.cons k2 w rest) =>
    "\"" ++ String.mk (escapeChars k.data) ++ "\":" ++ stringifyJSON v ++ ","
      ++ stringifyObj (.cons k2 w rest)
end

/- ### The live control tree (external Angular `AbstractControl` capability) -/

mutual
/-- Modelled from the spec: the live control capability of spec section 6
(Angular's `AbstractControl`, external to the repository): `value`,
`valid`, `dirty`, `disabled`, `errors`, and for composites an
ordered-by-insertion mapping (group) or ordered sequence (array-like) of
child controls. -/
inductive Ctrl where
  | leaf (value : JSVal) (valid dirty disabled : Bool) (errors : JSVal) : Ctrl
  | group (valid dirty disabled : Bool) (errors : JSVal) (children : CtrlFields) : Ctrl
  | array (valid dirty disabled : Bool) (errors : JSVal) (children : CtrlList) : Ctrl
  deriving DecidableEq, Repr

inductive CtrlFields where
  | nil : CtrlFields
  | cons (k : String) (c : Ctrl) (rest : CtrlFields) : CtrlFields
  deriving DecidableEq, Repr

inductive CtrlList where
  | nil : CtrlList
  | cons (c : Ctrl) (rest : CtrlList) : CtrlList
  deriving DecidableEq, Repr
end

mutual
/-- The `value` property of a live control: a leaf's own value, or the
children's values nested as an object (group) / an array (array-like). -/
def ctrlValue : Ctrl → JSVal
  | .leaf v _ _ _ _ => v
  | .group _ _ _ _ cs => .obj (ctrlFieldsValue cs)
  | .array _ _ _ _ cs => .arr (ctrlListValue cs)

def ctrlFieldsValue : CtrlFields → JSObj
  | .nil => .nil
  | .cons k c rest => .cons k (ctrlValue c) (ctrlFieldsValue rest)

def ctrlListValue : CtrlList → JSArr
  | .nil => .nil
  | .cons c rest => .cons (ctrlValue c) (ctrlListValue rest)
end

mutual
/-- Modelled from the spec: `toStore` of `builders.ts` (not under `src/`),
the `toSnapshot` conversion of spec section 4.2: read `value`, `valid`,
`dirty`, `disabled`, `errors` off the live control and recurse into
children (nested under `controls`) for composites. -/
def toStore : Ctrl → JSVal
  | .leaf v va d di e =>
    .obj (.cons "value" v (.cons "valid" (.bool va) (.cons "dirty" (.bool d)
      (.cons "disabled" (.bool di) (.cons "errors" e .nil)))))
  | .group va d di e cs =>
    .obj (.cons "value" (.obj (ctrlFieldsValue cs)) (.cons "valid" (.bool va)
      (.cons "dirty" (.bool d) (.cons "disabled" (.bool di)
      (.cons "errors" e (.cons "controls" (.obj (toStoreFields cs)) .nil))))))
  | .array va d di e cs =>
    .obj (.cons "value" (.arr (ctrlListValue cs)) (.cons "valid" (.bool va)
      (.cons "dirty" (.bool d) (.cons "disabled" (.bool di)
      (.cons "errors" e (.cons "controls" (.arr (toStoreList cs)) .nil))))))

def toStoreFields : CtrlFields → JSObj
  | .nil => .nil
  | .cons k c rest => .cons k (toStore c) (toStoreFields rest)

def toStoreList : CtrlList → JSArr
  | .nil => .nil
  | .cons c rest => .cons (toStore c) (toStoreList rest)
end

mutual
/-- Modelled from the spec: the control's partial value-application
operation (`patchValue` of the external live-control capability, spec
section 6), as invoked by `upsert` with `emitEvent: false`: the supplied
value is applied to the matching part of the tree; status flags are not
touched by the application itself. -/
def patchCtrl : Ctrl → JSVal → Ctrl
  | .leaf _ va d di e, v => .leaf v va d di e
  | .group va d di e cs, .obj fs => .group va d di e (patchFields cs fs)
  | .group va d di e cs, _ => .group va d di e cs
  | .array va d di e cs, .arr xs => .array va d di e (patchList cs xs 0)
  | .array va d di e cs, _ => .array va d di e cs

def patchFields : CtrlFields → JSObj → CtrlFields
  | .nil, _ => .nil
  | .cons k c rest, fs =>
    match fs.lookup k with
    | some v => .cons k (patchCtrl c v) (patchFields rest fs)
    | none => .cons k c (patchFields rest fs)

def patchList : CtrlList → JSArr → Nat → CtrlList
  | .nil, _, _ => .nil
  | .cons c rest, xs, i =>
    match xs.get i with
    | some v => .cons (patchCtrl c v) (patchList rest xs (i + 1))
    | none => .cons c (patchList rest xs (i + 1))
end

/-- A factory producing a new child control from a stored value
(`arrControlFactory`). -/
def ControlFactory : Type := JSVal → Ctrl

/-- Modelled from the spec: `handleFormArray` of `builders.ts` (not under
`src/`), the array reconciliation of `applyStoredValue` (spec section
4.2): for each element position present in the stored value but absent as
a live child, a new child control is instantiated via the factory and
inserted at that index. -/
def reconcileArray : CtrlList → JSArr → Option ControlFactory → CtrlList
  | cs, .nil, _ => cs
  | .cons c cs, .cons _ xs, f => .cons c (reconcileArray cs xs f)
  | .nil, .cons x xs, f =>
    match f with
    | some mk => .cons (mk x) (reconcileArray .nil xs f)
    | none => .nil

def handleFormArray (value : JSVal) (control : Ctrl) (factory : Option ControlFactory) : Ctrl :=
  match control, value with
  | .array va d di e cs, .arr xs => .array va d di e (reconcileArray cs xs factory)
  | c, _ => c

mutual
/-- Modelled from the spec: `filterControlKeys` of `utils.ts` (not under
`src/`): the bookkeeping-stripped copy of a snapshot persisted per name
(spec section 6: no `valid`/`dirty`/`disabled`/`errors`, only value-shaped
data). -/
def filterControlKeys : JSVal → JSVal
  | .obj fs => .obj (filterControlKeysObj fs)
  | v => v

def filterControlKeysObj : JSObj → JSObj
  | .nil => .nil
  | .cons k v rest =>
    if k = "valid" ∨ k = "dirty" ∨ k = "disabled" ∨ k = "errors" then
      filterControlKeysObj rest
    else .cons k (filterControlKeys v) (filterControlKeysObj rest)
end

/-- Modelled from the spec: `findControl` of `builders.ts` (not under
`src/`), the `ControlAddressing.resolve` of spec section 4.1: split the
path at dots, traverse the snapshot's `controls` children hop by hop
(keys for groups, indices for array-likes), return `none` (JS null) on
any absent hop; the empty key list returns the node unchanged. -/
def resolvePath : JSVal → List String → Option JSVal
  | node, [] => some node
  | node, k :: rest =>
    match jsIndex node "controls" with
    | some (.obj fs) =>
      match fs.lookup k with
      | some child => resolvePath child rest
      | none => none
    | some (.arr xs) =>
      match k.toNat? with
      | some i =>
        match xs.get i with
        | some child => resolvePath child rest
        | none => none
      | none => none
    | _ => none

def findControl (node : JSVal) (path : String) : Option JSVal :=
  resolvePath node (path.splitOn ".")

/- ### Configuration -/

/-- A fully resolved configuration (process-wide defaults, or the result
of merging a per-call config over them); spec section 6. -/
structure Config where
  debounceTime : Nat
  persistState : Bool
  withInitialValue : Bool
  arrControlFactory : Option ControlFactory
  storageKey : String

/-- A per-call `UpsertConfig`: every field optional (`none` = the JS
`undefined`, i.e. the key is absent at the call site). -/
structure UpsertConfig where
  debounceTime : Option Nat
  persistState : Option Bool
  withInitialValue : Option Bool
  arrControlFactory : Option ControlFactory

def UpsertConfig.empty : UpsertConfig := ⟨none, none, none, none⟩

/-- Modelled from the spec: `NgFormsManagerConfig.merge` of `config.ts`
(not under `src/`): the call-site config merged over the process-wide
defaults, call-site fields winning (spec section 6). -/
def Config.merge (defaults : Config) (c : UpsertConfig) : Config :=
  { debounceTime := c.debounceTime.getD defaults.debounceTime,
    persistState := c.persistState.getD defaults.persistState,
    withInitialValue := c.withInitialValue.getD defaults.withInitialValue,
    arrControlFactory := (match c.arrControlFactory with
      | some f => some f
      | none => defaults.arrControlFactory),
    storageKey := defaults.storageKey }

/-- JS truthiness of the raw call-site `config.persistState` (possibly
absent), as tested on line 340 of the source. -/
def rawPersist (c : UpsertConfig) : Bool := c.persistState == some true

/-- `FormKeys`: a single name or a collection of names. -/
inductive FormKeys where
  | one (name : String) : FormKeys
  | many (names : List String) : FormKeys

/-- Modelled from the spec: `coerceArray` of `utils.ts` (not under
`src/`): wrap a single name into a one-element list, pass a list
through. -/
def coerceArray : FormKeys → List String
  | .one n => [n]
  | .many ns => ns

/- ### The manager state and its operations -/

/-- A JS exception class that the embedded code can throw. -/
inductive JsError where
  | syntaxError : JsError
  | referenceError : JsError
  deriving DecidableEq, Repr

/-- What a per-name rxjs subscription callback (source lines 359-367)
closes over: the name, the control instance and the merged config. -/
structure SubTarget where
  name : String
  control : Ctrl
  config : Config

/-- The mutable state of an `NgFormsManager` instance plus the
`localStorage` content it interacts with.  `liveSubs` holds every rxjs
subscription that has been created and not yet cancelled, keyed by a
fresh id (`nextId`); `valueChanges` is the `valueChanges$$` map from name
to the id of the subscription it tracks. -/
structure MState where
  config : Config
  store : List (String × JSVal)
  valueChanges : List (String × Nat)
  instances : List (String × Ctrl)
  initialValues : List (String × JSVal)
  liveSubs : List (Nat × SubTarget)
  nextId : Nat
  storage : List (String × String)

/-- `localStorage.getItem(key)`: outside a browser the `localStorage`
identifier itself throws a `ReferenceError`. -/
def getItem (isBrowser : Bool) (storage : List (String × String)) (key : String) :
    Except JsError (Option String) :=
  if isBrowser then .ok (alookup storage key) else .error .referenceError

/-- Source lines 387-389: `JSON.parse(localStorage.getItem(key) || '{}')`.
The `||` replaces only the falsy `null`/empty-string results by `'{}'`;
a non-empty unparsable string reaches `JSON.parse` and throws. -/
def getFromStorage (isBrowser : Bool) (storage : List (String × String)) (key : String) :
    Except JsError JSVal :=
  match getItem isBrowser storage key with
  | .error e => .error e
  | .ok item =>
    let s := match item with
      | none => "\x7b\x7d"
      | some s => if s = "" then "\x7b\x7d" else s
    match jsonParse s with
    | some v => .ok v
    | none => .error .syntaxError

/-- Source lines 179-190 (`getControl` without a path): the raw store
entry. -/
def getControl (st : MState) (name : String) : Option JSVal :=
  alookup st.store name

/-- Source lines 202-204: `!!this.getControl(name)`. -/
def hasControl (st : MState) (name : String) : Bool :=
  truthyOpt (getControl st name)

/-- Source lines 412-419 (`updateStore`): write the fresh snapshot under
`name` and return it. -/
def updateStore (st : MState) (name : String) (control : Ctrl) : MState × JSVal :=
  let value := toStore control
  ({ st with store := aset st.store name value }, value)

/-- Source lines 379-385 (`updateStorage`): guarded by `isBrowser()` and
the merged `persistState`; re-reads the blob, replaces the `name` entry
with the bookkeeping-stripped snapshot, writes the blob back. -/
def updateStorage (isBrowser : Bool) (st : MState) (name : String) (value : JSVal)
    (config : Config) : Except JsError MState :=
  if isBrowser && config.persistState then
    match getFromStorage isBrowser st.storage config.storageKey with
    | .error e => .error e
    | .ok storageValue =>
      let storageValue := jsSet storageValue name (filterControlKeys value)
      .ok { st with storage := aset st.storage config.storageKey (stringifyJSON storageValue) }
  else .ok st

def storeToObj : List (String × JSVal) → JSObj
  | [] => .nil
  | (k, v) :: rest => .cons k v (storeToObj rest)

/-- The store mapping as the JS object `JSON.stringify` receives. -/
def storeToJS (store : List (String × JSVal)) : JSVal := .obj (storeToObj store)

/-- Source lines 375-377 (`removeFromStorage`): writes the whole current
store to `localStorage` with NO `isBrowser()` guard (unlike
`updateStorage`), so outside a browser the `localStorage` access throws
a `ReferenceError`. -/
def removeFromStorage (isBrowser : Bool) (st : MState) : Except JsError MState :=
  if isBrowser then
    .ok { st with storage := (aset st.storage (st.config.merge UpsertConfig.empty).storageKey
      (stringifyJSON (storeToJS st.store))) }
  else .error .referenceError

/-- Source lines 395-410 (`toControlValue`): read the current store
entry's `value`; if the snapshot has (truthy) `controls`, reconcile the
live control's array children via `handleFormArray` first.  The `none`
branch is unreachable at the guarded call site (`hasControl` holds
there). -/
def toControlValue (st : MState) (name : String) (control : Ctrl)
    (factory : Option ControlFactory) : Ctrl × JSVal :=
  match getControl st name with
  | none => (control, JSVal.null)
  | some currentControl =>
    let value := (jsIndex currentControl "value").getD JSVal.null
    if truthyOpt (jsIndex currentControl "controls") then
      (handleFormArray value control factory, value)
    else (control, value)

/-- Source lines 259-261 (`setInitialValue`). -/
def setInitialValue (st : MState) (name : String) (value : JSVal) : MState :=
  { st with initialValues := aset st.initialValues name value }

/-- Source lines 369-371: store the new subscription handle (a fresh id,
appended to the live set WITHOUT cancelling any previous subscription for
`name`) and the live-control reference. -/
def finishSub (st : MState) (name : String) (control : Ctrl) (mergedConfig : Config) :
    Except JsError MState :=
  .ok { st with
    liveSubs := st.liveSubs ++ [(st.nextId, ⟨name, control, mergedConfig⟩)],
    valueChanges := aset st.valueChanges name st.nextId,
    instances := aset st.instances name control,
    nextId := st.nextId + 1 }

/-- Source lines 349-357 plus 359-372: the tail of `upsert` after the
rehydration step — patch an already-registered control from the store, or
write and persist a fresh snapshot; then subscribe. -/
def upsertFinish (isBrowser : Bool) (st : MState) (name : String) (control : Ctrl)
    (mergedConfig : Config) : Except JsError MState :=
  if hasControl st name then
    let cv := toControlValue st name control mergedConfig.arrControlFactory
    finishSub st name (patchCtrl cv.1 cv.2) mergedConfig
  else
    match updateStore st name control with
    | (st2, value) =>
      match updateStorage isBrowser st2 name value mergedConfig with
      | .error e => .error e
      | .ok st3 => finishSub st3 name control mergedConfig

/-- Source lines 333-373 (`upsert`): merge the config; capture the initial
value at most once; if `isBrowser() && config.persistState` (the RAW
call-site flag) and the name is unregistered, rehydrate by deep-merging
the persisted entry over the fresh snapshot; then patch-or-create and
subscribe. -/
def upsert (isBrowser : Bool) (st : MState) (name : String) (control : Ctrl)
    (config : UpsertConfig) : Except JsError MState :=
  let mergedConfig := st.config.merge config
  let st :=
    if mergedConfig.withInitialValue && (alookup st.initialValues name).isNone then
      setInitialValue st name (ctrlValue control)
    else st
  if isBrowser && rawPersist config && !(hasControl st name) then
    match getFromStorage isBrowser st.storage mergedConfig.storageKey with
    | .error e => .error e
    | .ok storageValue =>
      let st :=
        if truthyOpt (jsIndex storageValue name) then
          match jsIndex storageValue name with
          | some entry =>
            { st with store := aset st.store name (mergeDeep (toStore control) entry) }
          | none => st
        else st
      upsertFinish isBrowser st name control mergedConfig
  else upsertFinish isBrowser st name control mergedConfig

/-- Cancelling one rxjs subscription handle (`subscription.unsubscribe()`). -/
def cancelSub (st : MState) (id : Nat) : MState :=
  { st with liveSubs := st.liveSubs.filter (fun p => p.1 != id) }

def allSentinel : String := "$$ALL"

/-- Source lines 270-289 (`unsubscribe`): with a name (or names), cancel
the tracked subscription if any, drop the registry entries and emit the
name on `destroy$$`, per name; with no argument, cancel every tracked
subscription emitting the `'$$ALL'` sentinel once PER tracked entry, then
clear both registries.  Returns the new state and the `destroy$$`
emissions of the call. -/
def unsubscribe (st : MState) (name : Option FormKeys) : MState × List String :=
  match name with
  | some ks =>
    (coerceArray ks).foldl
      (fun acc n =>
        let st := acc.1
        let st :=
          match alookup st.valueChanges n with
          | some id => cancelSub st id
          | none => st
        let st := { st with
          valueChanges := adelete st.valueChanges n,
          instances := adelete st.instances n }
        (st, acc.2 ++ [n]))
      (st, [])
  | none =>
    let ids := st.valueChanges.map (fun p => p.2)
    let st2 := ids.foldl cancelSub st
    let ems := st.valueChanges.map (fun _ => allSentinel)
    ({ st2 with valueChanges := [], instances := [] }, ems)

/-- Source lines 161-165 (`controlDestroyed`): the destroy stream filtered
to `name === controlName || controlName === '$$ALL'`; modelled on the
list of emissions. -/
def controlDestroyed (name : String) (emissions : List String) : List String :=
  emissions.filter (fun controlName => name == controlName || controlName == allSentinel)

/-- Modelled from the spec: `deleteControl` of `builders.ts` (not under
`src/`), the `removeEntries` of spec section 4.2: a new top-level mapping
with the given names' keys omitted. -/
def deleteControl (store : List (String × JSVal)) (names : List String) :
    List (String × JSVal) :=
  store.filter (fun p => !(names.contains p.1))

/-- Source lines 421-423 (`removeInitialValue`): `coerceArray(name)`
applied to the raw (possibly `undefined`) argument.  When `clear()` was
called with no argument, `coerceArray(undefined)` is `[undefined]`, and
deleting the `undefined` key from a string-keyed map removes nothing. -/
def removeInitialValue (st : MState) (name : Option FormKeys) : MState :=
  match name with
  | some ks =>
    { st with initialValues := (coerceArray ks).foldl adelete st.initialValues }
  | none => st

/-- Source lines 300-304 (`clear`): delete the targeted entries (or reset
the store), then `removeFromStorage` (which persists the whole resulting
store, or throws outside a browser), then remove the captured initial
values of the targeted names. -/
def clear (isBrowser : Bool) (st : MState) (name : Option FormKeys) :
    Except JsError MState :=
  let st :=
    match name with
    | some ks => { st with store := deleteControl st.store (coerceArray ks) }
    | none => { st with store := [] }
  match removeFromStorage isBrowser st with
  | .error e => .error e
  | .ok st2 => .ok (removeInitialValue st2 name)

/-- Source lines 315-318 (`destroy`): `unsubscribe` then `clear`. -/
def destroyOp (isBrowser : Bool) (st : MState) (name : Option FormKeys) :
    Except JsError (MState × List String) :=
  match unsubscribe st name with
  | (st1, ems) =>
    match clear isBrowser st1 name with
    | .error e => .error e
    | .ok st2 => .ok (st2, ems)

/-- One delivery of the (debounced) merged value/status change event to
the subscription with handle `id` (the callback of source lines 364-367):
a cancelled or unknown handle does nothing; a live one recomputes the
snapshot, writes the store and persists. -/
def fireSub (isBrowser : Bool) (st : MState) (id : Nat) : Except JsError MState :=
  match alookup st.liveSubs id with
  | none => .ok st
  | some t =>
    match updateStore st t.name t.control with
    | (st2, value) => updateStorage isBrowser st2 t.name value t.config

/- ### Derived change streams, modelled on emission lists

A stream is modelled by the list of values it emits; the store-selection
stream for a name is the list of that name's entries over a sequence of
store states (spec section 4.3: `selectByName` is a continuous stream of
the value at that key, including absence). -/

/-- Modelled from the spec: `filterNil` of `utils.ts` (not under `src/`):
drop `null`/`undefined` emissions. -/
def filterNil (l : List (Option JSVal)) : List JSVal :=
  l.foldr
    (fun o acc =>
      match o with
      | some v => if v = JSVal.null then acc else v :: acc
      | none => acc)
    []

/-- The tail loop of rxjs `distinctUntilChanged(comparator)`: each
candidate is compared with the most recently emitted value. -/
def duGo {α : Type} (eq : α → α → Bool) (prev : α) : List α → List α
  | [] => []
  | y :: ys => if eq prev y then duGo eq prev ys else y :: duGo eq y ys

/-- rxjs `distinctUntilChanged(comparator)` on an emission list: the first
value is emitted, later ones only when the comparator rejects equality
with the last emitted value. -/
def distinctUntilChangedBy {α : Type} (eq : α → α → Bool) : List α → List α
  | [] => []
  | x :: xs => x :: duGo eq x xs

/-- `this.store.select(state => state[name])` over a sequence of store
states. -/
def selectStream (name : String) (states : List (List (String × JSVal))) :
    List (Option JSVal) :=
  states.map (fun s => alookup s name)

/-- Source lines 121-131 (`controlChanges` without a path): select,
`filterNil`, `distinctUntilChanged(isEqual)`. -/
def controlChangesNoPath (name : String) (states : List (List (String × JSVal))) :
    List JSVal :=
  distinctUntilChangedBy isEqual (filterNil (selectStream name states))

/-- Source lines 121-131 (`controlChanges` with a path): select,
`filterNil`, `map(control => findControl(control, path))`,
`distinctUntilChanged(isEqual)`; note `findControl` may emit null
(`none`). -/
def controlChangesPath (name path : String) (states : List (List (String × JSVal))) :
    List (Option JSVal) :=
  distinctUntilChangedBy isEqualOpt
    ((filterNil (selectStream name states)).map (fun c => findControl c path))

/-- Source lines 88-90: `valueChanges` projects `control.value` over
`controlChanges`. -/
def valueChangesStream (name : String) (states : List (List (String × JSVal))) :
    List (Option JSVal) :=
  (controlChangesNoPath name states).map (fun c => jsIndex c "value")

/-- Source lines 33-35: `validityChanges` projects `control.valid`. -/
def validityChangesStream (name : String) (states : List (List (String × JSVal))) :
    List (Option JSVal) :=
  (controlChangesNoPath name states).map (fun c => jsIndex c "valid")

/-- Source lines 59-61: `dirtyChanges` projects `control.dirty`. -/
def dirtyChangesStream (name : String) (states : List (List (String × JSVal))) :
    List (Option JSVal) :=
  (controlChangesNoPath name states).map (fun c => jsIndex c "dirty")

/-- Source lines 72-74: `disableChanges` projects `control.disabled`. -/
def disableChangesStream (name : String) (states : List (List (String × JSVal))) :
    List (Option JSVal) :=
  (controlChangesNoPath name states).map (fun c => jsIndex c "disabled")

/-- Source lines 102-104: `errorsChanges` projects `control.errors`. -/
def errorsChangesStream (name : String) (states : List (List (String × JSVal))) :
    List (Option JSVal) :=
  (controlChangesNoPath name states).map (fun c => jsIndex c "errors")

/-- Source lines 142-150 (`initialValueChanged`): on each emitted current
value, whether it is deep-unequal to the captured initial value; with no
captured value the comparison is against `undefined` and yields `true`. -/
def initialValueChangedStream (initialValues : List (String × JSVal)) (name : String)
    (currents : List JSVal) : List Bool :=
  currents.map
    (fun current =>
      !(match alookup initialValues name with
        | some iv => isEqual current iv
        | none => false))

/- ### Concrete fixtures used by the claim theorems and witnesses -/

/-- Unwrap a normally-returning computation (`none` models a thrown
exception escaping the call). -/
def exceptOk {ε α : Type} : Except ε α → Option α
  | .ok a => some a
  | .error _ => none

/-- The conclusion of a computation that returns normally: `e` evaluates
to `.ok a` and `p a` holds. -/
def exOkAnd {ε α : Type} (e : Except ε α) (p : α → Prop) : Prop :=
  match e with
  | .ok a => p a
  | .error _ => False

/-- Process-wide defaults with persistence off (the built-in defaults of
`config.ts`). -/
def defaultsOff : Config :=
  ⟨100, false, false, none, "ngFormsManager"⟩

/-- Process-wide defaults with `persistState: true`. -/
def defaultsPersist : Config :=
  ⟨100, true, false, none, "ngFormsManager"⟩

/-- A freshly constructed manager (empty store and registries) with the
given injected defaults. -/
def emptyMState (cfg : Config) : MState :=
  ⟨cfg, [], [], [], [], [], 0, []⟩

/-- A leaf control with value `1`, valid, dirty, enabled, no errors. -/
def ctrlDirty : Ctrl := .leaf (.num 1) true true false .null

/-- A leaf control with value `1`, valid, pristine, enabled, no errors. -/
def ctrlClean : Ctrl := .leaf (.num 1) true false false .null

/-- A leaf control with value `2`, valid, pristine, enabled, no errors. -/
def ctrlTwo : Ctrl := .leaf (.num 2) true false false .null


/-- C1 fixture: two successive registrations of `"a"` starting from a
fresh manager in a non-browser environment (so no storage is touched). -/
def afterTwoUpserts : Option MState :=
  (exceptOk (upsert false (emptyMState defaultsOff) "a" ctrlDirty UpsertConfig.empty)).bind
    (fun st1 => exceptOk (upsert false st1 "a" ctrlTwo UpsertConfig.empty))

/-- C2 fixture: storage whose blob is the non-empty unparsable string
consisting of a single opening brace. -/
def corruptStorage : List (String × String) := [("ngFormsManager", "\x7b")]

/-- C3 fixture: a manager with one store entry. -/
def stC3 : MState :=
  { emptyMState defaultsOff with store := [("login", toStore ctrlClean)] }

/-- C4 fixture: a manager whose store already holds the snapshot of a
dirty control under `"a"`. -/
def stC4 : MState :=
  { emptyMState defaultsOff with store := [("a", toStore ctrlDirty)] }

/-- C4 witness fixture: the state after a fresh registration of `"a"`. -/
def c4FreshResult : MState :=
  match upsert false (emptyMState defaultsOff) "a" ctrlClean UpsertConfig.empty with
  | .ok st => st
  | .error _ => emptyMState defaultsOff

/-- C5 fixture: a manager with `"login"` registered (store entry, tracked
subscription id 0, instance). -/
def stC5 : MState :=
  { emptyMState defaultsOff with
    store := [("login", toStore ctrlClean)],
    valueChanges := [("login", 0)],
    instances := [("login", ctrlClean)],
    liveSubs := [(0, ⟨"login", ctrlClean, defaultsOff⟩)],
    nextId := 1 }

/-- C6/C9 fixture: a persisted blob holding an entry for `"a"` with value
`5`. -/
def rehydrateStorage : List (String × String) :=
  [("ngFormsManager", "\x7b\"a\":\x7b\"value\":5\x7d\x7d")]

/-- The parsed form of `rehydrateStorage`'s blob. -/
def rehydrateBlob : JSVal :=
  .obj (.cons "a" (.obj (.cons "value" (.num 5) .nil)) .nil)

/-- The blob's entry for `"a"`. -/
def rehydrateEntry : JSVal := .obj (.cons "value" (.num 5) .nil)

/-- C6 fixture: fresh manager over `rehydrateStorage`, persistence off in
the defaults. -/
def stC6 : MState := { emptyMState defaultsOff with storage := rehydrateStorage }

/-- A call-site config enabling persistence for this call only. -/
def cfgPersistCall : UpsertConfig := ⟨none, some true, none, none⟩

/-- C9 fixture: fresh manager over `rehydrateStorage`, persistence on in
the process-wide defaults but absent from the call-site config. -/
def stC9 : MState := { emptyMState defaultsPersist with storage := rehydrateStorage }

/-- C9 witness fixture: the state after `upsert` of `"a"` on `stC9` with
an empty call-site config. -/
def stC9result : MState :=
  match upsert true stC9 "a" ctrlClean UpsertConfig.empty with
  | .ok st => st
  | .error _ => stC9

/-- C10 fixture: a manager with captured initial values for `"login"` and
`"other"`. -/
def stC10 : MState :=
  { emptyMState defaultsOff with
    store := [("login", toStore ctrlClean), ("other", toStore ctrlTwo)],
    initialValues := [("login", .num 1), ("other", .num 2)] }

/-- C7 witness fixture: a sequence of store states in which `"a"` never
has an entry. -/
def statesAbsent : List (List (String × JSVal)) :=
  [[("b", JSVal.num 7)], [], [("b", JSVal.num 8)]]

/-- C8 witness fixture: the state after `clear()` with no name on `stC3`. -/
def c8ClearResult : MState :=
  match clear true stC3 none with
  | .ok st => st
  | .error _ => stC3

/-- C10 witness fixture: the state after `clear("login")` on `stC10`. -/
def c10ClearResult : MState :=
  match clear true stC10 (some (.one "login")) with
  | .ok st => st
  | .error _ => stC10

/- ### Helper lemmas -/

theorem alookup_aset_self {κ α : Type} [DecidableEq κ] (l : List (κ × α)) (k : κ) (v : α) :
    alookup (aset l k v) k = some v := by
  induction l with
  | nil => simp [aset, alookup]
  | cons hd tl ih =>
    obtain ⟨k', w⟩ := hd
    by_cases h : k' = k
    · subst h; simp [aset, alookup]
    · simp [aset, alookup, h, ih]

theorem alookup_aset_other {κ α : Type} [DecidableEq κ] (l : List (κ × α)) (k k' : κ) (v : α)
    (h : k ≠ k') : alookup (aset l k v) k' = alookup l k' := by
  induction l with
  | nil => simp [aset, alookup, h]
  | cons hd tl ih =>
    obtain ⟨k'', w⟩ := hd
    by_cases h2 : k'' = k
    · subst h2; simp [aset, alookup, h]
    · simp [aset, alookup, h2, ih]

theorem alookup_adelete {κ α : Type} [DecidableEq κ] (l : List (κ × α)) (k n : κ) :
    alookup (adelete l k) n = if n = k then none else alookup l n := by
  induction l with
  | nil => simp [adelete, alookup]
  | cons hd tl ih =>
    obtain ⟨k', w⟩ := hd
    by_cases h : k' = k
    · subst h
      by_cases h2 : n = k'
      · subst h2; simp [adelete, ih]
      · have h3 : ¬ k' = n := fun hh => h2 hh.symm
        simp [adelete, alookup, ih, h2, h3]
    · by_cases h2 : k' = n
      · subst h2
        have h3 : ¬ k' = k := h
        have h4 : ¬ k' = k := h
        simp [adelete, alookup, h3, fun hh : k' = k => h hh]
      · simp [adelete, alookup, h, h2, ih]

theorem alookup_filter_ne {α : Type} (l : List (Nat × α)) (id : Nat) :
    alookup (l.filter (fun p => p.1 != id)) id = none := by
  induction l with
  | nil => simp [alookup]
  | cons hd tl ih =>
    obtain ⟨k, v⟩ := hd
    by_cases h : k = id
    · subst h; simp [List.filter_cons, alookup, ih]
    · simp [List.filter_cons, alookup, h, ih]

theorem alookup_filter_none {α : Type} (p : Nat × α → Bool) (l : List (Nat × α)) (i : Nat)
    (h : alookup l i = none) : alookup (l.filter p) i = none := by
  induction l with
  | nil => simp [alookup]
  | cons hd tl ih =>
    obtain ⟨k, v⟩ := hd
    by_cases hk : k = i
    · subst hk; simp [alookup] at h
    · simp [alookup, hk] at h
      cases hp : p (k, v) <;> simp [List.filter_cons, hp, alookup, hk, ih h]

theorem foldl_cancel_none (ids : List Nat) (l : List (Nat × SubTarget)) (i : Nat)
    (h : alookup l i = none) :
    alookup (ids.foldl (fun acc id => acc.filter (fun p => p.1 != id)) l) i = none := by
  induction ids generalizing l with
  | nil => simpa using h
  | cons hd tl ih => exact ih _ (alookup_filter_none _ l i h)

theorem foldl_cancel_mem (ids : List Nat) (l : List (Nat × SubTarget)) (i : Nat)
    (h : i ∈ ids) :
    alookup (ids.foldl (fun acc id => acc.filter (fun p => p.1 != id)) l) i = none := by
  induction ids generalizing l with
  | nil => cases h
  | cons hd tl ih =>
    rcases List.mem_cons.mp h with h1 | h2
    · subst h1
      exact foldl_cancel_none tl _ i (alookup_filter_ne l i)
    · exact ih _ h2

theorem alookup_mem_values {κ α : Type} [DecidableEq κ] (l : List (κ × α)) (k : κ) (v : α)
    (h : alookup l k = some v) : v ∈ l.map Prod.snd := by
  induction l with
  | nil => simp [alookup] at h
  | cons hd tl ih =>
    obtain ⟨k', w⟩ := hd
    by_cases hk : k' = k
    · subst hk; simp [alookup] at h; simp [h]
    · simp [alookup, hk] at h
      simp [ih h]

theorem duGo_chain {α : Type} (eq : α → α → Bool) (prev : α) (l : List α) :
    List.Chain' (fun a b => eq a b = false) (prev :: duGo eq prev l) := by
  induction l generalizing prev with
  | nil => simp [duGo]
  | cons y ys ih =>
    cases h : eq prev y with
    | true => simpa [duGo, h] using ih prev
    | false =>
      have hstep : duGo eq prev (y :: ys) = y :: duGo eq y ys := by simp [duGo, h]
      rw [hstep, List.chain'_cons]
      exact ⟨h, ih y⟩

/-- Adjacent emissions of `distinctUntilChanged(eq)` are never related by
`eq`. -/
theorem distinctUntilChangedBy_chain {α : Type} (eq : α → α → Bool) (l : List α) :
    List.Chain' (fun a b => eq a b = false) (distinctUntilChangedBy eq l) := by
  cases l with
  | nil => simp [distinctUntilChangedBy]
  | cons x xs => simpa [distinctUntilChangedBy] using duGo_chain eq x xs

theorem mem_duGo {α : Type} (eq : α → α → Bool) (prev : α) (l : List α) (v : α)
    (h : v ∈ duGo eq prev l) : v ∈ l := by
  induction l generalizing prev with
  | nil => simp [duGo] at h
  | cons y ys ih =>
    cases he : eq prev y with
    | true =>
      simp only [duGo, he, if_pos] at h
      exact List.mem_cons_of_mem _ (ih prev h)
    | false =>
      have hstep : duGo eq prev (y :: ys) = y :: duGo eq y ys := by simp [duGo, he]
      rw [hstep] at h
      rcases List.mem_cons.mp h with h1 | h2
      · simp [h1]
      · exact List.mem_cons_of_mem _ (ih y h2)

theorem mem_distinctUntilChangedBy {α : Type} (eq : α → α → Bool) (l : List α) (v : α)
    (h : v ∈ distinctUntilChangedBy eq l) : v ∈ l := by
  cases l with
  | nil => simp [distinctUntilChangedBy] at h
  | cons x xs =>
    simp only [distinctUntilChangedBy] at h
    rcases List.mem_cons.mp h with h1 | h2
    · simp [h1]
    · exact List.mem_cons_of_mem _ (mem_duGo eq x xs v h2)

theorem mem_filterNil (l : List (Option JSVal)) (v : JSVal) (h : v ∈ filterNil l) :
    some v ∈ l := by
  induction l with
  | nil => simp [filterNil] at h
  | cons o rest ih =>
    cases o with
    | none =>
      simp only [filterNil, List.foldr] at h
      exact List.mem_cons_of_mem _ (ih h)
    | some w =>
      by_cases hw : w = JSVal.null
      · subst hw
        simp only [filterNil, List.foldr, if_pos rfl] at h
        exact List.mem_cons_of_mem _ (ih h)
      · simp only [filterNil, List.foldr, if_neg hw] at h
        rcases List.mem_cons.mp h with h1 | h2
        · subst h1; simp
        · exact List.mem_cons_of_mem _ (ih h2)

theorem filterNil_all_none (l : List (Option JSVal)) (h : ∀ o ∈ l, o = none) :
    filterNil l = [] := by
  induction l with
  | nil => rfl
  | cons o rest ih =>
    have ho : o = none := h o (by simp)
    subst ho
    simpa [filterNil] using ih (fun o ho => h o (by simp [ho]))

/- ### Claim theorems -/

/-- C1: the claim states that `upsert` on an already-registered name
cancels the previously installed subscription before installing the new
one, so no reachable state has two live subscriptions writing the same
store entry.  The source (lines 359-370) does NOT cancel: it merely
overwrites the `valueChanges$$` map entry.  This theorem evaluates the
embedded code at the failing input — two successive `upsert("a", ...)`
calls: afterwards BOTH subscriptions (ids 0 and 1) are still live and
target `"a"`, only id 1 is tracked, and delivering a change event to the
stale subscription id 0 (after one on id 1) overwrites `store["a"]` with
the old control's snapshot. -/
theorem C1_upsert_keeps_previous_subscription_live :
    afterTwoUpserts.map
      (fun st2 =>
        ((alookup st2.liveSubs 0).map SubTarget.name,
         (alookup st2.liveSubs 1).map SubTarget.name,
         alookup st2.valueChanges "a",
         (exceptOk (fireSub false st2 1)).bind
           (fun st3 => (exceptOk (fireSub false st3 0)).map
             (fun st4 => alookup st4.store "a"))))
    = some (some "a", some "a", some 1, some (some (toStore ctrlDirty))) := by
  rfl

/-- C2 counterexample: the claim states reading the persisted blob never
raises; but `getFromStorage` (line 388) is
`JSON.parse(localStorage.getItem(key) || '{}')`, and on the stored
non-empty unparsable string consisting of one opening brace `JSON.parse`
throws a `SyntaxError`. -/
theorem C2_read_raises_on_unparsable_blob :
    getFromStorage true corruptStorage "ngFormsManager" = .error .syntaxError := by
  rfl

/-- C2 (amended): `getFromStorage` returns the parsed mapping when the
stored string is non-empty well-formed JSON, the empty mapping when the
key is absent or holds the empty string, and throws a `SyntaxError` when
the stored string is non-empty and unparsable. -/
theorem C2_read_amended (storage : List (String × String)) (key : String) :
    (alookup storage key = none →
      getFromStorage true storage key = .ok (JSVal.obj .nil)) ∧
    (alookup storage key = some "" →
      getFromStorage true storage key = .ok (JSVal.obj .nil)) ∧
    (∀ s v, alookup storage key = some s → s ≠ "" → jsonParse s = some v →
      getFromStorage true storage key = .ok v) ∧
    (∀ s, alookup storage key = some s → s ≠ "" → jsonParse s = none →
      getFromStorage true storage key = .error .syntaxError) := by
  refine ⟨?_, ?_, ?_, ?_⟩
  · intro h
    simp [getFromStorage, getItem, h]
    rfl
  · intro h
    simp [getFromStorage, getItem, h]
    rfl
  · intro s v h hs hp
    simp [getFromStorage, getItem, h, hs, hp]
  · intro s h hs hp
    simp [getFromStorage, getItem, h, hs, hp]

/-- Witness for `C2_read_amended` at a concrete input: an absent key reads
as the empty mapping. -/
theorem C2_read_amended_witness :
    getFromStorage true ([] : List (String × String)) "k" = .ok (JSVal.obj .nil) :=
  (C2_read_amended [] "k").1 rfl

/-- C3: the claim states that in a non-browser runtime every operation
that would persist — in particular `clear()` — silently skips persistence
and never raises.  `updateStorage` (lines 379-385) is indeed guarded by
`isBrowser()` and skips silently, but `removeFromStorage` (lines
375-377), which `clear` always calls, accesses `localStorage` with no
guard and throws a `ReferenceError`: the code contradicts the intent
shown by its guarded sibling. -/
theorem C3_clear_throws_outside_browser :
    clear false stC3 none = .error .referenceError ∧
    clear false stC3 (some (.one "login")) = .error .referenceError ∧
    updateStorage false stC3 "login" (toStore ctrlClean) defaultsPersist = .ok stC3 ∧
    (exceptOk (upsert false (emptyMState defaultsPersist) "login" ctrlClean
      cfgPersistCall)).isSome = true := by
  exact ⟨rfl, rfl, rfl, rfl⟩

/-- `updateStorage` only ever changes the `storage` field (or throws). -/
theorem updateStorage_ok_frame (isBrowser : Bool) (st : MState) (name : String)
    (value : JSVal) (cfg : Config) (st' : MState)
    (h : updateStorage isBrowser st name value cfg = .ok st') :
    st'.config = st.config ∧ st'.store = st.store ∧ st'.valueChanges = st.valueChanges ∧
    st'.instances = st.instances ∧ st'.initialValues = st.initialValues ∧
    st'.liveSubs = st.liveSubs ∧ st'.nextId = st.nextId := by
  unfold updateStorage at h
  split at h
  · split at h
    · exact absurd h (by simp)
    · cases h
      exact ⟨rfl, rfl, rfl, rfl, rfl, rfl, rfl⟩
  · cases h
    exact ⟨rfl, rfl, rfl, rfl, rfl, rfl, rfl⟩

/-- The fresh-registration tail of `upsert`: when the name has no store
entry, the store receives exactly `toStore control` and the instance map
the unmodified control. -/
theorem upsertFinish_fresh (isBrowser : Bool) (st : MState) (name : String)
    (control : Ctrl) (cfg : Config) (st' : MState)
    (hnew : hasControl st name = false)
    (hok : upsertFinish isBrowser st name control cfg = .ok st') :
    getControl st' name = some (toStore control) ∧
    alookup st'.instances name = some control := by
  unfold upsertFinish at hok
  rw [hnew] at hok
  simp only [Bool.false_eq_true, if_false] at hok
  simp only [updateStore] at hok
  cases hu : updateStorage isBrowser { st with store := aset st.store name (toStore control) }
      name (toStore control) cfg with
  | error e =>
    rw [hu] at hok
    exact absurd hok (by simp)
  | ok st3 =>
    rw [hu] at hok
    unfold finishSub at hok
    cases hok
    obtain ⟨-, hstore, -, hinst, -, -, -⟩ :=
      updateStorage_ok_frame _ _ _ _ _ _ hu
    constructor
    · show alookup (st3.store) name = _
      rw [hstore]
      exact alookup_aset_self _ _ _
    · show alookup (aset st3.instances name control) name = some control
      exact alookup_aset_self _ _ _

/-- C4 counterexample: the claim extends the equality
`getControl(name) = toSnapshot(control)` to the case where `name` was
already registered; but the already-registered branch of `upsert` (lines
349-353) leaves the store entry untouched and only patches the control's
value from the store, so the old snapshot's status flags survive.  Here
the store holds the snapshot of a dirty control and a pristine control is
upserted under the same name: afterwards the store entry still carries
`dirty: true` while the registered instance's snapshot carries
`dirty: false`, and the two are not deep-equal. -/
theorem C4_registered_upsert_snapshot_differs :
    (exceptOk (upsert false stC4 "a" ctrlClean UpsertConfig.empty)).map
      (fun st =>
        (getControl st "a",
         (alookup st.instances "a").map
           (fun c => isEqual ((getControl st "a").getD JSVal.null) (toStore c))))
    = some (some (toStore ctrlDirty), some false) := by
  rfl

/-- C4 (amended): immediately after `upsert(name, control, config)`
returns for a name that was NOT yet registered and was not rehydrated
from storage, the synchronous read `getControl(name)` is exactly the
snapshot `toStore control` taken at that instant, and the registered
instance is the unmodified control.  (For an already-registered name the
store entry is left unchanged and only the control is patched from it, so
the claimed deep-equality can fail — see the counterexample.) -/
theorem C4_fresh_upsert_getControl_eq_snapshot (isBrowser : Bool) (st : MState)
    (name : String) (control : Ctrl) (config : UpsertConfig) (st' : MState)
    (hnew : hasControl st name = false)
    (hnoreh : (isBrowser && rawPersist config) = false)
    (hok : upsert isBrowser st name control config = .ok st') :
    getControl st' name = some (toStore control) ∧
    alookup st'.instances name = some control := by
  cases hiv : ((st.config.merge config).withInitialValue
      && (alookup st.initialValues name).isNone) with
  | true =>
    have hnew2 : hasControl (setInitialValue st name (ctrlValue control)) name = false := hnew
    have hguard : ((isBrowser && rawPersist config)
        && !(hasControl (setInitialValue st name (ctrlValue control)) name)) = false := by
      rw [hnoreh, Bool.false_and]
    unfold upsert at hok
    simp only [hiv, hguard, Bool.false_eq_true, Bool.true_eq_false, if_true, if_false,
      ite_true, ite_false] at hok
    exact upsertFinish_fresh _ _ _ _ _ _ hnew2 hok
  | false =>
    have hguard : ((isBrowser && rawPersist config) && !(hasControl st name)) = false := by
      rw [hnoreh, Bool.false_and]
    unfold upsert at hok
    simp only [hiv, hguard, Bool.false_eq_true, Bool.true_eq_false, if_true, if_false,
      ite_true, ite_false] at hok
    exact upsertFinish_fresh _ _ _ _ _ _ hnew hok

/-- Witness for `C4_fresh_upsert_getControl_eq_snapshot` at a concrete
input: a fresh registration of `"a"` on an empty manager. -/
theorem C4_fresh_upsert_witness :
    getControl c4FreshResult "a" = some (toStore ctrlClean) ∧
    alookup c4FreshResult.instances "a" = some ctrlClean :=
  C4_fresh_upsert_getControl_eq_snapshot false (emptyMState defaultsOff) "a" ctrlClean
    UpsertConfig.empty c4FreshResult rfl rfl rfl

theorem foldl_cancelSub_liveSubs (ids : List Nat) (st : MState) :
    (ids.foldl cancelSub st).liveSubs
      = ids.foldl (fun l id => l.filter (fun p => p.1 != id)) st.liveSubs := by
  induction ids generalizing st with
  | nil => rfl
  | cons hd tl ih => simp [List.foldl, cancelSub, ih]

theorem map_const_sentinel (l : List (String × Nat)) :
    l.map (fun _ => allSentinel) = List.replicate l.length allSentinel := by
  induction l with
  | nil => rfl
  | cons hd tl ih => simp [List.replicate, ih]

theorem controlDestroyed_replicate_sentinel (name : String) (n : Nat) :
    controlDestroyed name (List.replicate n allSentinel) = List.replicate n allSentinel := by
  induction n with
  | zero => rfl
  | succ m ih => simp [controlDestroyed, List.replicate, allSentinel] at ih ⊢

/-- C5: for a registered `name`, `unsubscribe(name)` emits `name` on the
destroy stream exactly once (and `controlDestroyed(name)` passes exactly
that one emission), removes the `valueChanges$$` and `instances$$`
entries, cancels the tracked subscription, and a subsequent change-event
delivery on that subscription leaves the state (in particular the store
entry) untouched; `unsubscribe()` with no argument does this for every
currently registered name, emitting the `'$$ALL'` sentinel (once per
registered name, each passing every name's `controlDestroyed` filter) and
clearing both registries. -/
theorem C5_unsubscribe_cancels_and_signals (isBrowser : Bool) (st : MState)
    (name : String) (id : Nat)
    (hreg : alookup st.valueChanges name = some id) :
    (unsubscribe st (some (.one name))).2 = [name] ∧
    controlDestroyed name (unsubscribe st (some (.one name))).2 = [name] ∧
    alookup (unsubscribe st (some (.one name))).1.valueChanges name = none ∧
    alookup (unsubscribe st (some (.one name))).1.instances name = none ∧
    alookup (unsubscribe st (some (.one name))).1.liveSubs id = none ∧
    fireSub isBrowser (unsubscribe st (some (.one name))).1 id
      = .ok (unsubscribe st (some (.one name))).1 ∧
    (unsubscribe st none).1.valueChanges = [] ∧
    (unsubscribe st none).1.instances = [] ∧
    (unsubscribe st none).2 = List.replicate st.valueChanges.length allSentinel ∧
    controlDestroyed name (unsubscribe st none).2 = (unsubscribe st none).2 ∧
    (∀ n i, alookup st.valueChanges n = some i →
      alookup (unsubscribe st none).1.liveSubs i = none) := by
  have h1 : unsubscribe st (some (.one name))
      = ({ st with
            liveSubs := st.liveSubs.filter (fun p => p.1 != id),
            valueChanges := adelete st.valueChanges name,
            instances := adelete st.instances name }, [name]) := by
    simp [unsubscribe, coerceArray, List.foldl, hreg, cancelSub]
  have h2 : (unsubscribe st none).2 = List.replicate st.valueChanges.length allSentinel := by
    simp [unsubscribe, map_const_sentinel]
  refine ⟨?_, ?_, ?_, ?_, ?_, ?_, ?_, ?_, h2, ?_, ?_⟩
  · rw [h1]
  · rw [h1]; simp [controlDestroyed]
  · rw [h1]; simp [alookup_adelete]
  · rw [h1]; simp [alookup_adelete]
  · rw [h1]; exact alookup_filter_ne _ _
  · rw [h1]
    simp [fireSub, alookup_filter_ne]
  · simp [unsubscribe]
  · simp [unsubscribe]
  · rw [h2]
    exact controlDestroyed_replicate_sentinel name _
  · intro n i hni
    have hmem : i ∈ st.valueChanges.map Prod.snd := alookup_mem_values _ _ _ hni
    show alookup ((st.valueChanges.map (fun p => p.2)).foldl cancelSub st).liveSubs i = none
    rw [foldl_cancelSub_liveSubs]
    exact foldl_cancel_mem _ _ _ (by simpa using hmem)

/-- Witness for `C5_unsubscribe_cancels_and_signals` at a concrete input:
unsubscribing the registered `"login"` passes exactly one emission
through `controlDestroyed("login")`. -/
theorem C5_unsubscribe_witness :
    controlDestroyed "login" (unsubscribe stC5 (some (.one "login"))).2 = ["login"] :=
  (C5_unsubscribe_cancels_and_signals false stC5 "login" 0 rfl).2.1

theorem truthy_mergeDeep_toStore (control : Ctrl) (entry : JSVal)
    (h : truthy entry = true) :
    truthy (mergeDeep (toStore control) entry) = true := by
  cases entry with
  | obj fs => cases control <;> simp [toStore, mergeDeep, truthy]
  | null => cases control <;> simpa [toStore, mergeDeep] using h
  | bool b => cases control <;> simpa [toStore, mergeDeep] using h
  | num n => cases control <;> simpa [toStore, mergeDeep] using h
  | str s => cases control <;> simpa [toStore, mergeDeep] using h
  | arr xs => cases control <;> simpa [toStore, mergeDeep] using h

/-- The already-registered tail of `upsert`: the store is untouched, the
registries get the (patched) control under a fresh subscription id. -/
theorem upsertFinish_registered_exOk (isBrowser : Bool) (st : MState) (name : String)
    (control : Ctrl) (cfg : Config) (p : MState → Prop)
    (hreg : hasControl st name = true)
    (hp : ∀ c : Ctrl, p { st with
      liveSubs := st.liveSubs ++ [(st.nextId, ⟨name, c, cfg⟩)],
      valueChanges := aset st.valueChanges name st.nextId,
      instances := aset st.instances name c,
      nextId := st.nextId + 1 }) :
    exOkAnd (upsertFinish isBrowser st name control cfg) p := by
  unfold upsertFinish finishSub
  rw [hreg]
  simp only [eq_self_iff_true, if_true, exOkAnd]
  exact hp _

/-- C6: on an `upsert` call in a browser with the call-site `persistState`
flag set, for a name that is not yet registered, if the persisted blob
parses and contains a (truthy) entry for that name, then that entry is
deep-merged over the freshly computed snapshot of the supplied control
(persisted fields winning, i.e. the persisted entry is `mergeDeep`'s
source) and the merged result is the store entry when the registration
completes (the subscription is installed under the fresh id). -/
theorem C6_rehydration_merges_persisted_entry (st : MState) (name : String)
    (control : Ctrl) (config : UpsertConfig) (blob entry : JSVal)
    (hpersist : config.persistState = some true)
    (hnew : hasControl st name = false)
    (hblob : getFromStorage true st.storage (st.config.merge config).storageKey = .ok blob)
    (hentry : jsIndex blob name = some entry)
    (htruthy : truthy entry = true) :
    exOkAnd (upsert true st name control config) (fun st' =>
      alookup st'.store name = some (mergeDeep (toStore control) entry) ∧
      alookup st'.valueChanges name = some st.nextId ∧
      st'.nextId = st.nextId + 1) := by
  have hraw : rawPersist config = true := by simp [rawPersist, hpersist]
  unfold upsert
  cases hiv : ((st.config.merge config).withInitialValue
      && (alookup st.initialValues name).isNone) with
  | true =>
    have hnew2 : hasControl (setInitialValue st name (ctrlValue control)) name = false := hnew
    have hguard : ((true && rawPersist config)
        && !(hasControl (setInitialValue st name (ctrlValue control)) name)) = true := by
      rw [hraw, hnew2]; rfl
    have hblob2 : getFromStorage true (setInitialValue st name (ctrlValue control)).storage
        (st.config.merge config).storageKey = .ok blob := hblob
    simp only [hiv, if_true, hguard, eq_self_iff_true, hblob2, hentry, truthyOpt, htruthy]
    apply upsertFinish_registered_exOk
    · show truthyOpt (alookup (aset (setInitialValue st name (ctrlValue control)).store name
        (mergeDeep (toStore control) entry)) name) = true
      rw [alookup_aset_self]
      exact truthy_mergeDeep_toStore control entry htruthy
    · intro c
      refine ⟨?_, ?_, rfl⟩
      · exact alookup_aset_self _ _ _
      · exact alookup_aset_self _ _ _
  | false =>
    have hguard : ((true && rawPersist config) && !(hasControl st name)) = true := by
      rw [hraw, hnew]; rfl
    simp only [hiv, Bool.false_eq_true, if_false, hguard, eq_self_iff_true, if_true,
      hblob, hentry, truthyOpt, htruthy]
    apply upsertFinish_registered_exOk
    · show truthyOpt (alookup (aset st.store name
        (mergeDeep (toStore control) entry)) name) = true
      rw [alookup_aset_self]
      exact truthy_mergeDeep_toStore control entry htruthy
    · intro c
      refine ⟨?_, ?_, rfl⟩
      · exact alookup_aset_self _ _ _
      · exact alookup_aset_self _ _ _

/-- Witness for `C6_rehydration_merges_persisted_entry` at a concrete
input: rehydrating `"a"` from a blob holding `value: 5`. -/
theorem C6_rehydration_witness :
    exOkAnd (upsert true stC6 "a" ctrlClean cfgPersistCall) (fun st' =>
      alookup st'.store "a" = some (mergeDeep (toStore ctrlClean) rehydrateEntry) ∧
      alookup st'.valueChanges "a" = some stC6.nextId ∧
      st'.nextId = stC6.nextId + 1) :=
  C6_rehydration_merges_persisted_entry stC6 "a" ctrlClean cfgPersistCall
    rehydrateBlob rehydrateEntry rfl rfl rfl rfl rfl

/-- C7: the derived change streams emit nothing while the store entry for
`name` is absent (if the entry is never present, nothing at all is
emitted — by `controlChanges` or any of the five projections over it —
and every emitted snapshot stems from a state where the entry is
present), and consecutive emissions are never deep-equal: neither two
snapshots of the no-path stream nor two path-resolved nodes of the
path stream. -/
theorem C7_derived_streams_gated_and_distinct (name path : String)
    (states : List (List (String × JSVal))) :
    ((∀ s, s ∈ states → alookup s name = none) →
      controlChangesNoPath name states = [] ∧ controlChangesPath name path states = [] ∧
      valueChangesStream name states = [] ∧ validityChangesStream name states = [] ∧
      dirtyChangesStream name states = [] ∧ disableChangesStream name states = [] ∧
      errorsChangesStream name states = []) ∧
    (∀ v, v ∈ controlChangesNoPath name states →
      ∃ s, s ∈ states ∧ alookup s name = some v) ∧
    List.Chain' (fun a b => isEqual a b = false) (controlChangesNoPath name states) ∧
    List.Chain' (fun a b => isEqualOpt a b = false) (controlChangesPath name path states) := by
  refine ⟨?_, ?_, distinctUntilChangedBy_chain _ _, distinctUntilChangedBy_chain _ _⟩
  · intro h
    have hsel : ∀ o ∈ selectStream name states, o = none := by
      intro o ho
      simp only [selectStream, List.mem_map] at ho
      obtain ⟨s, hs, rfl⟩ := ho
      exact h s hs
    have hfn : filterNil (selectStream name states) = [] := filterNil_all_none _ hsel
    refine ⟨?_, ?_, ?_, ?_, ?_, ?_, ?_⟩ <;>
      simp [controlChangesNoPath, controlChangesPath, valueChangesStream,
        validityChangesStream, dirtyChangesStream, disableChangesStream,
        errorsChangesStream, hfn, distinctUntilChangedBy]
  · intro v hv
    have h1 := mem_distinctUntilChangedBy _ _ _ hv
    have h2 := mem_filterNil _ _ h1
    simp only [selectStream, List.mem_map] at h2
    obtain ⟨s, hs, hsv⟩ := h2
    exact ⟨s, hs, hsv⟩

/-- Witness for `C7_derived_streams_gated_and_distinct` at a concrete
input: over store states that never hold `"a"`, `controlChanges("a")`
emits nothing. -/
theorem C7_streams_witness : controlChangesNoPath "a" statesAbsent = [] :=
  ((C7_derived_streams_gated_and_distinct "a" "x" statesAbsent).1 (by decide)).1

theorem alookup_deleteControl (store : List (String × JSVal)) (names : List String)
    (n : String) :
    alookup (deleteControl store names) n
      = if n ∈ names then none else alookup store n := by
  induction store with
  | nil => simp [deleteControl, alookup]
  | cons hd tl ih =>
    obtain ⟨k, v⟩ := hd
    simp only [deleteControl, List.filter_cons] at ih ⊢
    by_cases hm : k ∈ names
    · have hc : names.contains k = true := by simpa using hm
      simp only [hc, Bool.not_true, Bool.false_eq_true, if_false]
      rw [ih]
      by_cases hn : n ∈ names
      · simp [hn]
      · have hkn : ¬ k = n := fun he => hn (he ▸ hm)
        simp [hn, alookup, hkn]
    · have hc : names.contains k = false := by simpa using hm
      simp only [hc, Bool.not_false, if_true]
      by_cases hk : k = n
      · subst hk
        simp [alookup, hm]
      · simp only [alookup]
        rw [if_neg hk, if_neg hk]
        exact ih

/-- C8: `clear()` with no name resets the store to the empty mapping and
writes the full (now empty) store to the persisted blob; `clear(name)`
removes exactly the targeted names' entries (all other entries are left
untouched) and persists the resulting full store. -/
theorem C8_clear_resets_and_persists (st : MState) (ks : FormKeys) :
    exOkAnd (clear true st none) (fun st1 =>
      st1.store = [] ∧
      alookup st1.storage st.config.storageKey
        = some (stringifyJSON (storeToJS []))) ∧
    exOkAnd (clear true st (some ks)) (fun st2 =>
      st2.store = deleteControl st.store (coerceArray ks) ∧
      (∀ n, n ∈ coerceArray ks → alookup st2.store n = none) ∧
      (∀ n, ¬ n ∈ coerceArray ks → alookup st2.store n = alookup st.store n) ∧
      alookup st2.storage st.config.storageKey
        = some (stringifyJSON (storeToJS st2.store))) := by
  constructor
  · simp only [clear, removeFromStorage, removeInitialValue, if_true, exOkAnd]
    exact ⟨True.intro, alookup_aset_self _ _ _⟩
  · simp only [clear, removeFromStorage, removeInitialValue, if_true, exOkAnd]
    refine ⟨True.intro, ?_, ?_, ?_⟩
    · intro n hn
      rw [alookup_deleteControl]
      simp [hn]
    · intro n hn
      rw [alookup_deleteControl]
      simp [hn]
    · exact alookup_aset_self _ _ _

/-- Witness for `C8_clear_resets_and_persists` at a concrete input:
clearing everything on a manager holding one entry empties the store and
persists the empty mapping. -/
theorem C8_clear_witness :
    c8ClearResult.store = [] ∧
    alookup c8ClearResult.storage stC3.config.storageKey
      = some (stringifyJSON (storeToJS [])) :=
  (C8_clear_resets_and_persists stC3 (.one "login")).1

/-- The fresh-registration tail of `upsert` with persistence on: the store
receives the fresh snapshot and the blob entry for `name` is replaced by
its bookkeeping-stripped copy. -/
theorem upsertFinish_fresh_persist_exOk (st : MState) (name : String) (control : Ctrl)
    (cfg : Config) (blob : JSVal) (p : MState → Prop)
    (hnew : hasControl st name = false)
    (hpersist : cfg.persistState = true)
    (hblob : getFromStorage true st.storage cfg.storageKey = .ok blob)
    (hp : p { st with
        store := aset st.store name (toStore control),
        valueChanges := aset st.valueChanges name st.nextId,
        instances := aset st.instances name control,
        liveSubs := st.liveSubs ++ [(st.nextId, ⟨name, control, cfg⟩)],
        nextId := st.nextId + 1,
        storage := aset st.storage cfg.storageKey
          (stringifyJSON (jsSet blob name (filterControlKeys (toStore control)))) }) :
    exOkAnd (upsertFinish true st name control cfg) p := by
  unfold upsertFinish
  rw [hnew]
  simp only [Bool.false_eq_true, if_false, updateStore]
  unfold updateStorage
  simp only [hpersist, Bool.and_self, if_true, hblob]
  unfold finishSub
  simp only [exOkAnd]
  exact hp

/-- C9: the storage-rehydration step of `upsert` (line 340) is gated on
the RAW call-site `config.persistState`, not on the merged configuration:
with `persistState` true only in the process-wide defaults and absent
from the call-site config, `upsert` of an unregistered name does NOT
merge the (truthy) persisted entry — the store gets the plain fresh
snapshot — even though per-change persistence (`updateStorage`, which
uses the merged flag) still writes the blob. -/
theorem C9_rehydration_gate_uses_raw_config (st : MState) (name : String)
    (control : Ctrl) (config : UpsertConfig) (blob entry : JSVal)
    (hdef : st.config.persistState = true)
    (hcall : config.persistState = none)
    (hnew : hasControl st name = false)
    (hblob : getFromStorage true st.storage (st.config.merge config).storageKey = .ok blob)
    (hentry : jsIndex blob name = some entry)
    (htruthy : truthy entry = true) :
    exOkAnd (upsert true st name control config) (fun st' =>
      alookup st'.store name = some (toStore control) ∧
      alookup st'.storage (st.config.merge config).storageKey
        = some (stringifyJSON (jsSet blob name (filterControlKeys (toStore control))))) := by
  have hraw : rawPersist config = false := by simp [rawPersist, hcall]
  have hmp : (st.config.merge config).persistState = true := by
    simp [Config.merge, hcall, hdef]
  unfold upsert
  cases hiv : ((st.config.merge config).withInitialValue
      && (alookup st.initialValues name).isNone) with
  | true =>
    have hnew2 : hasControl (setInitialValue st name (ctrlValue control)) name = false := hnew
    have hguard : ((true && rawPersist config)
        && !(hasControl (setInitialValue st name (ctrlValue control)) name)) = false := by
      rw [hraw]; rfl
    simp only [hiv, if_true, hguard, Bool.false_eq_true, if_false]
    refine upsertFinish_fresh_persist_exOk _ _ _ _ blob _ hnew2 hmp hblob ?_
    exact ⟨alookup_aset_self _ _ _, alookup_aset_self _ _ _⟩
  | false =>
    have hguard : ((true && rawPersist config) && !(hasControl st name)) = false := by
      rw [hraw]; rfl
    simp only [hiv, Bool.false_eq_true, if_false, hguard]
    refine upsertFinish_fresh_persist_exOk _ _ _ _ blob _ hnew hmp hblob ?_
    exact ⟨alookup_aset_self _ _ _, alookup_aset_self _ _ _⟩

/-- Witness for `C9_rehydration_gate_uses_raw_config` at a concrete input:
with defaults-only persistence, the store entry after `upsert` is the
plain snapshot, not a merge with the persisted `value: 5` entry. -/
theorem C9_gate_witness : alookup stC9result.store "a" = some (toStore ctrlClean) :=
  (C9_rehydration_gate_uses_raw_config stC9 "a" ctrlClean UpsertConfig.empty
    rehydrateBlob rehydrateEntry rfl rfl rfl rfl rfl rfl).1

theorem foldl_adelete_preserve_none {κ α : Type} [DecidableEq κ] (ns : List κ)
    (l : List (κ × α)) (n : κ) (h : alookup l n = none) :
    alookup (ns.foldl adelete l) n = none := by
  induction ns generalizing l with
  | nil => simpa using h
  | cons hd tl ih =>
    apply ih
    rw [alookup_adelete]
    simp [h]

theorem alookup_foldl_adelete_mem {κ α : Type} [DecidableEq κ] (ns : List κ)
    (l : List (κ × α)) (n : κ) (h : n ∈ ns) :
    alookup (ns.foldl adelete l) n = none := by
  induction ns generalizing l with
  | nil => cases h
  | cons hd tl ih =>
    rcases List.mem_cons.mp h with h1 | h2
    · subst h1
      exact foldl_adelete_preserve_none tl _ n (by rw [alookup_adelete]; simp)
    · exact ih _ h2

theorem alookup_foldl_adelete_not_mem {κ α : Type} [DecidableEq κ] (ns : List κ)
    (l : List (κ × α)) (n : κ) (h : ¬ n ∈ ns) :
    alookup (ns.foldl adelete l) n = alookup l n := by
  induction ns generalizing l with
  | nil => rfl
  | cons hd tl ih =>
    have h1 : ¬ n ∈ tl := fun hh => h (List.mem_cons_of_mem _ hh)
    have h2 : ¬ n = hd := fun hh => h (by simp [hh])
    rw [List.foldl_cons, ih _ h1, alookup_adelete, if_neg h2]

/-- C10: `clear()` with no name leaves every captured initial value in
place — `removeInitialValue(undefined)` coerces to `[undefined]`, whose
deletion from the string-keyed map removes nothing, so
`initialValueChanged` still compares against the same baselines — while
`clear(name)` removes the captured initial values of exactly the targeted
names. -/
theorem C10_clear_preserves_initial_values (st : MState) (ks : FormKeys) :
    exOkAnd (clear true st none) (fun st1 =>
      st1.initialValues = st.initialValues ∧
      (∀ name currents,
        initialValueChangedStream st1.initialValues name currents
          = initialValueChangedStream st.initialValues name currents)) ∧
    exOkAnd (clear true st (some ks)) (fun st2 =>
      (∀ n, n ∈ coerceArray ks → alookup st2.initialValues n = none) ∧
      (∀ n, ¬ n ∈ coerceArray ks →
        alookup st2.initialValues n = alookup st.initialValues n)) := by
  constructor
  · simp only [clear, removeFromStorage, removeInitialValue, if_true, exOkAnd]
    exact ⟨True.intro, fun _ _ => True.intro⟩
  · simp only [clear, removeFromStorage, removeInitialValue, if_true, exOkAnd]
    constructor
    · intro n hn
      exact alookup_foldl_adelete_mem _ _ _ hn
    · intro n hn
      exact alookup_foldl_adelete_not_mem _ _ _ hn

/-- Witness for `C10_clear_preserves_initial_values` at a concrete input:
`clear("login")` removes exactly `"login"`'s captured initial value. -/
theorem C10_clear_witness : alookup c10ClearResult.initialValues "login" = none := by
  have h := (C10_clear_preserves_initial_values stC10 (.one "login")).2
  exact h.1 "login" (by simp [coerceArray])
